import Mathlib

/-!
Verification development for the siphon incremental synchronization engine.

The definitions below are a shallow embedding of the Python sources:

* `src/batch_runner.py` — `BatchRunner`: persistent state, change
  detection, the three category pipelines, and the delta/full sync
  orchestration;
* `src/uploader.py` — `VectorStoreUploader.upload_files_to_openai`;
* `src/scraper.py` — `ZendeskScraper.fetch_articles_list`.

External effects (HTTP requests, the OpenAI client, the file system) are
modelled by an explicit environment (`Env`) of oracles; persistent state
is threaded explicitly through a `RunnerState`; Python dictionaries are
modelled as association lists with Python dict semantics (unique keys,
insertion order, in-place overwrite on update).
-/

/-- Item summary as listed by the content source (a Zendesk article
summary): identifier, title and the `updated_at` version marker.  The
runner always converts identifiers with `str(...)`, so identifiers are
strings here, and markers are the opaque strings the source supplies. -/
structure Article where
  id : String
  title : String
  updated_at : String
deriving DecidableEq

/-- The persistent identity mapping `article_id -> file_id`
(`file_mapping.json`), modelled as an association list in insertion
order, mirroring a Python `dict` with string keys and values. -/
abbrev Mapping := List (String × String)

/-- Python `d.get(k)` / `d[k]`: the value stored at the first (unique)
occurrence of the key. -/
def dictGet (m : Mapping) (k : String) : Option String :=
  (m.find? (fun p => p.1 == k)).map Prod.snd

/-- Python `k in d`: key membership. -/
def hasKey (m : Mapping) (k : String) : Bool :=
  m.any (fun p => p.1 == k)

/-- Python `d.keys()` in insertion order. -/
def dictKeys (m : Mapping) : List String :=
  m.map Prod.fst

/-- Python `d[k] = v`: overwrite in place when the key exists, append
otherwise. -/
def dictInsert (m : Mapping) (k v : String) : Mapping :=
  if hasKey m k then m.map (fun p => if p.1 == k then (k, v) else p)
  else m ++ [(k, v)]

/-- Python `d.update(entries)`: insert every entry of `entries` in
order. -/
def dictUpdate (m entries : Mapping) : Mapping :=
  entries.foldl (fun acc p => dictInsert acc p.1 p.2) m

/-- Python `del d[k]`: remove the key. -/
def dictErase (m : Mapping) (k : String) : Mapping :=
  m.filter (fun p => p.1 != k)

/-- Lexicographic comparison of character lists by code point,
structurally recursive so that concrete comparisons evaluate.  This is
the ordering Python uses for `str < str`. -/
def lexLt : List Char → List Char → Bool
  | _, [] => false
  | [], _ :: _ => true
  | a :: as, b :: bs =>
    if a < b then true
    else if a = b then lexLt as bs
    else false

/-- Python string comparison `a < b` (lexicographic by code point). -/
def strLt (a b : String) : Bool :=
  lexLt a.data b.data

theorem lexLt_iff_lex :
    ∀ l₁ l₂ : List Char, lexLt l₁ l₂ = true ↔ List.Lex (· < ·) l₁ l₂ := by
  intro l₁
  induction l₁ with
  | nil =>
    intro l₂
    cases l₂ with
    | nil => simp only [lexLt]; exact iff_of_false (by simp) (by intro h; cases h)
    | cons b bs => exact iff_of_true rfl List.Lex.nil
  | cons a as ih =>
    intro l₂
    cases l₂ with
    | nil => simp only [lexLt]; exact iff_of_false (by simp) (by intro h; cases h)
    | cons b bs =>
      simp only [lexLt]
      by_cases hab : a < b
      · rw [if_pos hab]
        exact iff_of_true rfl (List.Lex.rel hab)
      · rw [if_neg hab]
        by_cases heq : a = b
        · subst heq
          rw [if_pos rfl]
          constructor
          · intro h; exact List.Lex.cons ((ih bs).mp h)
          · intro h
            cases h with
            | cons h => exact (ih bs).mpr h
            | rel h => exact absurd h hab
        · rw [if_neg heq]
          refine iff_of_false (by simp) ?_
          intro h
          cases h with
          | cons h => exact heq rfl
          | rel h => exact hab h

/-- The executable comparison `strLt` agrees with the order on `String`
from Mathlib, which is the lexicographic order by code point — the same
total order Python uses on `str`. -/
theorem strLt_iff_lt (a b : String) : strLt a b = true ↔ a < b := by
  constructor
  · intro hs
    exact String.lt_iff_toList_lt.mpr ((lexLt_iff_lex a.data b.data).mp hs)
  · intro hs
    exact (lexLt_iff_lex a.data b.data).mpr (String.lt_iff_toList_lt.mp hs)

/-- The guard of the `updated` branch of `BatchRunner.detect_changes`
(batch_runner.py line 97): `self.last_run_timestamp and
article_updated_at > self.last_run_timestamp`.  A `None` or empty
timestamp is falsy in Python, and `>` on strings is the lexicographic
order by code point. -/
def marker_is_newer (t : Option String) (u : String) : Bool :=
  match t with
  | none => false
  | some s => s != "" && strLt s u

/-- The classification loop of `BatchRunner.detect_changes`
(batch_runner.py lines 90-102): each current article goes, in order, to
exactly one of the (new, updated, unchanged) lists. -/
def classify_articles (m : Mapping) (t : Option String) :
    List Article → List Article × List Article × List Article
  | [] => ([], [], [])
  | a :: rest =>
    let r := classify_articles m t rest
    if hasKey m a.id then
      if marker_is_newer t a.updated_at then (r.1, a :: r.2.1, r.2.2)
      else (r.1, r.2.1, a :: r.2.2)
    else (a :: r.1, r.2.1, r.2.2)

/-- The result of change detection: the four category lists
(batch_runner.py lines 74-79).  `deleted` holds bare identifiers, the
other three hold the article summaries, as in the source. -/
structure ChangeSet where
  new : List Article
  updated : List Article
  deleted : List String
  unchanged : List Article
deriving DecidableEq

/-- `BatchRunner.detect_changes` (batch_runner.py lines 70-111):
`deleted` is the set of tracked ids absent from the current listing; the
loop distributes the current articles over new/updated/unchanged. -/
def detect_changes (m : Mapping) (t : Option String) (articles : List Article) : ChangeSet :=
  { new := (classify_articles m t articles).1
    updated := (classify_articles m t articles).2.1
    unchanged := (classify_articles m t articles).2.2
    deleted := (dictKeys m).filter (fun k => !(articles.any (fun a => a.id == k))) }

/-- Identifier projection of a list of articles. -/
def idsOf (l : List Article) : List String :=
  l.map Article.id

/-- Total number of detected changes, as computed at batch_runner.py
line 475. -/
def totalChanges (c : ChangeSet) : Nat :=
  c.new.length + c.updated.length + c.deleted.length

/-- Exactly one of three propositions holds. -/
def exactlyOneOfThree (p q r : Prop) : Prop :=
  (p ∨ q ∨ r) ∧ ¬(p ∧ q) ∧ ¬(p ∧ r) ∧ ¬(q ∧ r)

instance (p q r : Prop) [Decidable p] [Decidable q] [Decidable r] :
    Decidable (exactlyOneOfThree p q r) := by
  unfold exactlyOneOfThree; infer_instance

theorem classify_mem_new (m : Mapping) (t : Option String) {a : Article}
    {as : List Article} (ha : a ∈ as) (hk : hasKey m a.id = false) :
    a ∈ (classify_articles m t as).1 := by
  induction as with
  | nil => cases ha
  | cons b rest ih =>
    rcases List.mem_cons.mp ha with hb | hrest
    · subst hb
      simp only [classify_articles, hk]
      simp
    · by_cases hbk : hasKey m b.id = true
      · by_cases hbn : marker_is_newer t b.updated_at = true
        · simp only [classify_articles, hbk, hbn, if_true]
          exact ih hrest
        · simp only [classify_articles, hbk, if_true,
            Bool.not_eq_true] at hbn ⊢
          simp only [hbn]
          simp only [Bool.false_eq_true, if_false]
          exact ih hrest
      · simp only [classify_articles, Bool.not_eq_true] at hbk ⊢
        simp only [hbk, Bool.false_eq_true, if_false]
        exact List.mem_cons_of_mem _ (ih hrest)

theorem classify_mem_updated (m : Mapping) (t : Option String) {a : Article}
    {as : List Article} (ha : a ∈ as) (hk : hasKey m a.id = true)
    (hn : marker_is_newer t a.updated_at = true) :
    a ∈ (classify_articles m t as).2.1 := by
  induction as with
  | nil => cases ha
  | cons b rest ih =>
    rcases List.mem_cons.mp ha with hb | hrest
    · subst hb
      simp only [classify_articles, hk, hn, if_true]
      simp
    · by_cases hbk : hasKey m b.id = true
      · by_cases hbn : marker_is_newer t b.updated_at = true
        · simp only [classify_articles, hbk, hbn, if_true]
          exact List.mem_cons_of_mem _ (ih hrest)
        · simp only [classify_articles, hbk, if_true,
            Bool.not_eq_true] at hbn ⊢
          simp only [hbn, Bool.false_eq_true, if_false]
          exact ih hrest
      · simp only [classify_articles, Bool.not_eq_true] at hbk ⊢
        simp only [hbk, Bool.false_eq_true, if_false]
        exact ih hrest

theorem classify_mem_unchanged (m : Mapping) (t : Option String) {a : Article}
    {as : List Article} (ha : a ∈ as) (hk : hasKey m a.id = true)
    (hn : marker_is_newer t a.updated_at = false) :
    a ∈ (classify_articles m t as).2.2 := by
  induction as with
  | nil => cases ha
  | cons b rest ih =>
    rcases List.mem_cons.mp ha with hb | hrest
    · subst hb
      simp only [classify_articles, hk, hn, if_true, Bool.false_eq_true,
        if_false]
      simp
    · by_cases hbk : hasKey m b.id = true
      · by_cases hbn : marker_is_newer t b.updated_at = true
        · simp only [classify_articles, hbk, hbn, if_true]
          exact ih hrest
        · simp only [classify_articles, hbk, if_true,
            Bool.not_eq_true] at hbn ⊢
          simp only [hbn, Bool.false_eq_true, if_false]
          exact List.mem_cons_of_mem _ (ih hrest)
      · simp only [classify_articles, Bool.not_eq_true] at hbk ⊢
        simp only [hbk, Bool.false_eq_true, if_false]
        exact ih hrest

theorem classify_subset (m : Mapping) (t : Option String) :
    ∀ as : List Article,
      (classify_articles m t as).1 ⊆ as ∧
      (classify_articles m t as).2.1 ⊆ as ∧
      (classify_articles m t as).2.2 ⊆ as := by
  intro as
  induction as with
  | nil => simp [classify_articles]
  | cons b rest ih =>
    obtain ⟨ih1, ih2, ih3⟩ := ih
    by_cases hbk : hasKey m b.id = true
    · by_cases hbn : marker_is_newer t b.updated_at = true
      · simp only [classify_articles, hbk, hbn, if_true]
        exact ⟨ih1.trans (List.subset_cons_self _ _),
          List.cons_subset_cons _ ih2,
          ih3.trans (List.subset_cons_self _ _)⟩
      · simp only [classify_articles, hbk, if_true, Bool.not_eq_true] at hbn ⊢
        simp only [hbn, Bool.false_eq_true, if_false]
        exact ⟨ih1.trans (List.subset_cons_self _ _),
          ih2.trans (List.subset_cons_self _ _),
          List.cons_subset_cons _ ih3⟩
    · simp only [classify_articles, Bool.not_eq_true] at hbk ⊢
      simp only [hbk, Bool.false_eq_true, if_false]
      exact ⟨List.cons_subset_cons _ ih1,
        ih2.trans (List.subset_cons_self _ _),
        ih3.trans (List.subset_cons_self _ _)⟩

theorem classify_ids_perm (m : Mapping) (t : Option String) :
    ∀ as : List Article,
      (idsOf (classify_articles m t as).1 ++
        (idsOf (classify_articles m t as).2.1 ++
          idsOf (classify_articles m t as).2.2)).Perm (idsOf as) := by
  intro as
  induction as with
  | nil => simp [classify_articles, idsOf]
  | cons b rest ih =>
    by_cases hbk : hasKey m b.id = true
    · by_cases hbn : marker_is_newer t b.updated_at = true
      · simp only [classify_articles, hbk, hbn, if_true, idsOf,
          List.map_cons]
        exact List.perm_middle.trans (ih.cons b.id)
      · simp only [classify_articles, hbk, if_true, Bool.not_eq_true] at hbn ⊢
        simp only [hbn, Bool.false_eq_true, if_false, idsOf, List.map_cons]
        refine ((List.Perm.append_left _ List.perm_middle).trans ?_)
        exact List.perm_middle.trans (ih.cons b.id)
    · simp only [classify_articles, Bool.not_eq_true] at hbk ⊢
      simp only [hbk, Bool.false_eq_true, if_false, idsOf, List.map_cons]
      exact ih.cons b.id

/-- The in-memory state of a `BatchRunner` plus the on-disk state files
it reads and writes: whether `last_run.txt` and `file_mapping.json`
exist, the loaded last-run timestamp, the loaded mapping, and the loaded
vector store id (`BatchRunner.__init__`, batch_runner.py lines 17-29). -/
structure RunnerState where
  last_run_file_exists : Bool
  mapping_file_exists : Bool
  last_run_timestamp : Option String
  file_mapping : Mapping
  vector_store_id : Option String
deriving DecidableEq

/-- `BatchRunner.detect_changes` viewed as a state transformer on the
runner: the method reads `self.file_mapping` and
`self.last_run_timestamp`, builds fresh lists, and assigns nothing, so
it returns the state unchanged (batch_runner.py lines 70-111). -/
def detect_changes_st (s : RunnerState) (articles : List Article) :
    ChangeSet × RunnerState :=
  (detect_changes s.file_mapping s.last_run_timestamp articles, s)

/-- Claim C1 counterexample: with ihe state
`mapping = {"1": "fileA"}, lastRunMarker = "T0"` and a current item list
that repeats id "1" with markers "T1" and "T0", change detection places
id "1" both in `updated` and in `unchanged`, so the current item ids are
not partitioned into exactly one of {new, updated, unchanged}. -/
theorem detect_changes_duplicate_ids_break_partition :
    ("1" ∈ idsOf (detect_changes [("1", "fileA")] (some "T0")
        [⟨"1", "a", "T1"⟩, ⟨"1", "b", "T0"⟩]).updated) ∧
    ("1" ∈ idsOf (detect_changes [("1", "fileA")] (some "T0")
        [⟨"1", "a", "T1"⟩, ⟨"1", "b", "T0"⟩]).unchanged) ∧
    ¬ exactlyOneOfThree
        ("1" ∈ idsOf (detect_changes [("1", "fileA")] (some "T0")
            [⟨"1", "a", "T1"⟩, ⟨"1", "b", "T0"⟩]).new)
        ("1" ∈ idsOf (detect_changes [("1", "fileA")] (some "T0")
            [⟨"1", "a", "T1"⟩, ⟨"1", "b", "T0"⟩]).updated)
        ("1" ∈ idsOf (detect_changes [("1", "fileA")] (some "T0")
            [⟨"1", "a", "T1"⟩, ⟨"1", "b", "T0"⟩]).unchanged) := by decide

/-- Claim C1 (amended: the current item ids are pairwise distinct, as
they are for any listing keyed by id): the ChangeSet returned by
`detect_changes` partitions (mapping-keys ∪ current-item-ids) — every
current item id lands in exactly one of {new, updated, unchanged}, the
ids of those three lists are exactly the current item ids, and `deleted`
is exactly the tracked ids (keys of the mapping) minus the current item
ids. -/
theorem detect_changes_partition_of_nodup (m : Mapping) (t : Option String)
    (articles : List Article) (h : (idsOf articles).Nodup) :
    (∀ a ∈ articles,
        exactlyOneOfThree
          (a.id ∈ idsOf (detect_changes m t articles).new)
          (a.id ∈ idsOf (detect_changes m t articles).updated)
          (a.id ∈ idsOf (detect_changes m t articles).unchanged)) ∧
    (∀ i : String,
        (i ∈ idsOf (detect_changes m t articles).new ∨
         i ∈ idsOf (detect_changes m t articles).updated ∨
         i ∈ idsOf (detect_changes m t articles).unchanged) ↔
        i ∈ idsOf articles) ∧
    (∀ i : String,
        i ∈ (detect_changes m t articles).deleted ↔
          (i ∈ dictKeys m ∧ i ∉ idsOf articles)) := by
  have hperm := classify_ids_perm m t articles
  have hnd : (idsOf (classify_articles m t articles).1 ++
      (idsOf (classify_articles m t articles).2.1 ++
        idsOf (classify_articles m t articles).2.2)).Nodup :=
    hperm.nodup_iff.mpr h
  obtain ⟨hA, hBC, hdisjA⟩ := List.nodup_append.mp hnd
  obtain ⟨hB, hC, hdisjBC⟩ := List.nodup_append.mp hBC
  have hcover : ∀ i : String,
      (i ∈ idsOf (detect_changes m t articles).new ∨
       i ∈ idsOf (detect_changes m t articles).updated ∨
       i ∈ idsOf (detect_changes m t articles).unchanged) ↔
      i ∈ idsOf articles := by
    intro i
    have hm := hperm.mem_iff (a := i)
    simp only [List.mem_append] at hm
    exact hm
  refine ⟨?_, hcover, ?_⟩
  · intro a ha
    have hmem : a.id ∈ idsOf articles := List.mem_map.mpr ⟨a, ha, rfl⟩
    refine ⟨(hcover a.id).mpr hmem, ?_, ?_, ?_⟩
    · rintro ⟨hp, hq⟩
      exact hdisjA hp (List.mem_append.mpr (Or.inl hq))
    · rintro ⟨hp, hr⟩
      exact hdisjA hp (List.mem_append.mpr (Or.inr hr))
    · rintro ⟨hq, hr⟩
      exact hdisjBC hq hr
  · intro i
    simp only [detect_changes, List.mem_filter, Bool.not_eq_true',
      List.any_eq_false, idsOf, List.mem_map]
    constructor
    · rintro ⟨hkeys, hall⟩
      refine ⟨hkeys, ?_⟩
      rintro ⟨a, ha, rfl⟩
      exact absurd (beq_self_eq_true a.id) (by simpa using hall a ha)
    · rintro ⟨hkeys, hnone⟩
      refine ⟨hkeys, ?_⟩
      intro a ha
      by_contra hbe
      exact hnone ⟨a, ha, by simpa using hbe⟩

/-- Claim C1 witness: the amended partition theorem applied to the
concrete scenario of spec section 8 scenario A. -/
theorem detect_changes_partition_of_nodup_witness :
    (idsOf [⟨"1", "a", "T0"⟩, ⟨"2", "b", "T0"⟩]).Nodup ∧
    ((∀ a ∈ ([⟨"1", "a", "T0"⟩, ⟨"2", "b", "T0"⟩] : List Article),
        exactlyOneOfThree
          (a.id ∈ idsOf (detect_changes [("1", "fileA")] (some "T0")
            [⟨"1", "a", "T0"⟩, ⟨"2", "b", "T0"⟩]).new)
          (a.id ∈ idsOf (detect_changes [("1", "fileA")] (some "T0")
            [⟨"1", "a", "T0"⟩, ⟨"2", "b", "T0"⟩]).updated)
          (a.id ∈ idsOf (detect_changes [("1", "fileA")] (some "T0")
            [⟨"1", "a", "T0"⟩, ⟨"2", "b", "T0"⟩]).unchanged)) ∧
    (∀ i : String,
        (i ∈ idsOf (detect_changes [("1", "fileA")] (some "T0")
            [⟨"1", "a", "T0"⟩, ⟨"2", "b", "T0"⟩]).new ∨
         i ∈ idsOf (detect_changes [("1", "fileA")] (some "T0")
            [⟨"1", "a", "T0"⟩, ⟨"2", "b", "T0"⟩]).updated ∨
         i ∈ idsOf (detect_changes [("1", "fileA")] (some "T0")
            [⟨"1", "a", "T0"⟩, ⟨"2", "b", "T0"⟩]).unchanged) ↔
        i ∈ idsOf [⟨"1", "a", "T0"⟩, ⟨"2", "b", "T0"⟩]) ∧
    (∀ i : String,
        i ∈ (detect_changes [("1", "fileA")] (some "T0")
            [⟨"1", "a", "T0"⟩, ⟨"2", "b", "T0"⟩]).deleted ↔
          (i ∈ dictKeys [("1", "fileA")] ∧
           i ∉ idsOf [⟨"1", "a", "T0"⟩, ⟨"2", "b", "T0"⟩]))) :=
  ⟨by decide,
    detect_changes_partition_of_nodup [("1", "fileA")] (some "T0")
      [⟨"1", "a", "T0"⟩, ⟨"2", "b", "T0"⟩] (by decide)⟩

/-- Claim C2: for a current item whose id is tracked in the mapping and
a present (non-`None`, non-empty — the truthiness test on line 97 of
batch_runner.py) last-run marker, `detect_changes` classifies the item
`updated` exactly when its `updated_at` marker is strictly greater than
the last-run marker under the string order, and `unchanged` when less
than or equal; an untracked item is classified `new` regardless of its
marker. -/
theorem detect_changes_marker_rule (m : Mapping) (lr : String)
    (articles : List Article) (a : Article)
    (ha : a ∈ articles) (hlr : lr ≠ "") :
    a ∈ (if hasKey m a.id then
          (if lr < a.updated_at
            then (detect_changes m (some lr) articles).updated
            else (detect_changes m (some lr) articles).unchanged)
         else (detect_changes m (some lr) articles).new) := by
  by_cases hk : hasKey m a.id = true
  · rw [if_pos hk]
    by_cases hcmp : lr < a.updated_at
    · rw [if_pos hcmp]
      refine classify_mem_updated m (some lr) ha hk ?_
      simp only [marker_is_newer, Bool.and_eq_true, bne_iff_ne, ne_eq]
      exact ⟨hlr, (strLt_iff_lt lr a.updated_at).mpr hcmp⟩
    · rw [if_neg hcmp]
      refine classify_mem_unchanged m (some lr) ha hk ?_
      simp only [marker_is_newer, Bool.and_eq_false_iff]
      right
      rw [← Bool.not_eq_true]
      intro hs
      exact hcmp ((strLt_iff_lt lr a.updated_at).mp hs)
  · rw [if_neg hk]
    exact classify_mem_new m (some lr) ha (Bool.not_eq_true _ |>.mp hk)

/-- Claim C2 witness: the marker rule applied to a tracked item with a
strictly newer marker, which lands in `updated`. -/
theorem detect_changes_marker_rule_witness :
    ((⟨"1", "a", "T1"⟩ : Article) ∈ [(⟨"1", "a", "T1"⟩ : Article)]) ∧
    ("T0" : String) ≠ "" ∧
    (⟨"1", "a", "T1"⟩ : Article) ∈
      (if hasKey [("1", "fileA")] (Article.id ⟨"1", "a", "T1"⟩) then
        (if ("T0" : String) < (Article.updated_at ⟨"1", "a", "T1"⟩)
          then (detect_changes [("1", "fileA")] (some "T0")
            [⟨"1", "a", "T1"⟩]).updated
          else (detect_changes [("1", "fileA")] (some "T0")
            [⟨"1", "a", "T1"⟩]).unchanged)
       else (detect_changes [("1", "fileA")] (some "T0")
            [⟨"1", "a", "T1"⟩]).new) :=
  ⟨by decide, by decide,
    detect_changes_marker_rule [("1", "fileA")] "T0" [⟨"1", "a", "T1"⟩]
      ⟨"1", "a", "T1"⟩ (by decide) (by decide)⟩

/-- Claim C8: change detection is pure and deterministic — running it a
second time, on the state the first invocation returned and the same
item list, yields the identical ChangeSet, and the invocation leaves the
runner state (mapping and lastRunMarker) unmodified.  Both facts hold
definitionally because the embedded method only reads its inputs. -/
theorem detect_changes_pure_idempotent (s : RunnerState)
    (articles : List Article) :
    (detect_changes_st (detect_changes_st s articles).2 articles).1 =
      (detect_changes_st s articles).1 ∧
    (detect_changes_st s articles).2 = s :=
  ⟨rfl, rfl⟩

/-- A per-item failure record, as appended to the `failed_articles`
lists of the pipelines: the article id and the error text. -/
structure Failure where
  id : String
  error : String
deriving DecidableEq

/-- An entry of the `successfully_saved` list built in step 1 of
`process_new_articles` (batch_runner.py lines 135-139): article id, the
path of the saved markdown file, and the title. -/
structure SavedItem where
  article_id : String
  file_path : String
  title : String
deriving DecidableEq

/-- An entry of the `successfully_saved` list built in step 1 of
`process_updated_articles` (batch_runner.py lines 245-250), which also
records the pre-existing external file id. -/
structure UpdSavedItem where
  article_id : String
  file_path : String
  title : String
  old_file_id : String
deriving DecidableEq

/-- The oracle environment standing for all external collaborators:
the Zendesk HTTP API (`pages`, `scrapeAll`, `fetchSave`), the OpenAI
client (`uploadAll`, `uploadBatch`, `createVectorStore`, `attachBatch`,
`removeFromVectorStore`, `deleteFromOpenai`), the local article
directory (`localDelete`), the state files (`saveMappingOk`,
`saveTimestampOk`) and the wall clock (`now`).  Each field captures the
observable outcome of the corresponding call. -/
structure Env where
  /-- `requests.get` on `articles.json?page=n`: `none` is a request
  error, `some l` the article list of the page (scraper.py lines 30-45). -/
  pages : Nat → Option (List Article)
  /-- `ZendeskScraper.scrape_all_articles`: the successfully scraped
  articles of a full sync (scraper.py lines 366-442). -/
  scrapeAll : Nat → List Article
  /-- `VectorStoreUploader.upload_all_articles`: `none` when it returns
  a falsy result or raises, otherwise the uploaded-files mapping and the
  vector store id (uploader.py lines 221-287). -/
  uploadAll : Option (Mapping × String)
  /-- The combined outcome of `fetch_article_content` plus
  `save_article_as_markdown` for one article: the saved file path, or
  the error text of the exception raised (batch_runner.py
  lines 128-148). -/
  fetchSave : Article → Except String String
  /-- The outcome of the `upload_files_to_openai` call as observed by
  the caller: the returned `article_id -> file_id` mapping, or an
  exception (batch_runner.py lines 158-172). -/
  uploadBatch : List String → Except String Mapping
  /-- `VectorStoreUploader.create_vector_store`: `none` on failure,
  `some id` on success (uploader.py lines 93-114). -/
  createVectorStore : Option String
  /-- Truthiness of the `attach_files_to_vector_store` result; `false`
  also stands for the call raising (batch_runner.py lines 188-207). -/
  attachBatch : List String → Bool
  /-- `remove_files_from_vector_store` — best-effort, result unused. -/
  removeFromVectorStore : List String → Bool
  /-- `delete_files_from_openai` — best-effort, result unused. -/
  deleteFromOpenai : List String → Bool
  /-- Unlinking the local `.md` files of one article id: `.ok` on
  success, `.error e` when the glob/unlink raises (batch_runner.py
  lines 355-372). -/
  localDelete : String → Except String Unit
  /-- Whether `save_file_mapping` succeeds. -/
  saveMappingOk : Bool
  /-- Whether `save_last_run_timestamp` succeeds. -/
  saveTimestampOk : Bool
  /-- `datetime.now().isoformat()`. -/
  now : String

/-- Structural splitter for character lists (Python `str.split(sep)` for
a single-character separator). -/
def splitOnChar (c : Char) : List Char → List (List Char)
  | [] => [[]]
  | x :: xs =>
    match splitOnChar c xs with
    | [] => [[]]
    | h :: t => if x = c then [] :: h :: t else (x :: h) :: t

/-- Joiner inverse to `splitOnChar` (Python `sep.join(parts)`). -/
def joinWithChar (c : Char) : List (List Char) → List Char
  | [] => []
  | [x] => x
  | x :: xs => x ++ c :: joinWithChar c xs

/-- Python `pathlib.Path(p).stem`: the final path component with its
last extension removed; a leading dot alone does not start an
extension. -/
def pathStem (p : String) : String :=
  let base := (splitOnChar '/' p.data).getLastD []
  match splitOnChar '.' base with
  | [] => ⟨base⟩
  | [_] => ⟨base⟩
  | [] :: [_] => ⟨base⟩
  | parts => ⟨joinWithChar '.' parts.dropLast⟩

/-- The id extraction of `upload_files_to_openai` (uploader.py lines
58-60): `file_path.stem.split('-')[-1]`, relying on filenames of the
form `slug-{article_id}.md`. -/
def extractArticleId (p : String) : String :=
  ⟨(splitOnChar '-' (pathStem p).data).getLastD []⟩

/-- `VectorStoreUploader.upload_files_to_openai` on an explicit file
list (uploader.py lines 44-74): each file is uploaded inside its own
`try`, a failed upload is logged and skipped, and a successful one
stores `uploaded_files[article_id] = file_id`.  The per-file outcome is
the oracle `perFile` (the OpenAI `files.create` call). -/
def upload_step (perFile : String → Option String) (acc : Mapping)
    (p : String) : Mapping :=
  match perFile p with
  | some fid => dictInsert acc (extractArticleId p) fid
  | none => acc

/-- The loop of `upload_files_to_openai`: fold the per-file step over
the given paths starting from the empty dict. -/
def upload_files_to_openai (perFile : String → Option String)
    (paths : List String) : Mapping :=
  paths.foldl (upload_step perFile) []

/-- Step 1 of `process_new_articles` (batch_runner.py lines 122-148):
fetch and save each article independently; a failure is recorded and
does not block siblings.  Returns (successfully_saved, failed). -/
def new_step1 (env : Env) : List Article → List SavedItem × List Failure
  | [] => ([], [])
  | a :: rest =>
    let r := new_step1 env rest
    match env.fetchSave a with
    | .ok path => (⟨a.id, path, a.title⟩ :: r.1, r.2)
    | .error e => (r.1, ⟨a.id, e⟩ :: r.2)

/-- `BatchRunner.process_new_articles` (batch_runner.py lines 113-210):
fetch/save each article, batch-upload the saved files, lazily create the
vector store, batch-attach, and return `(uploaded_files,
failed_articles, vector_store_id)`.  A batch upload or batch attach
failure marks every saved article failed and returns an empty uploaded
mapping. -/
def process_new_articles (env : Env) (vsId : Option String)
    (items : List Article) : Mapping × List Failure × Option String :=
  if (new_step1 env items).1 = [] then ([], (new_step1 env items).2, vsId)
  else
    match env.uploadBatch ((new_step1 env items).1.map SavedItem.file_path) with
    | .error e =>
      ([], (new_step1 env items).2 ++
        (new_step1 env items).1.map
          (fun s => ⟨s.article_id, "Batch upload failed: " ++ e⟩), vsId)
    | .ok uploaded =>
      match vsId with
      | some vid =>
        if env.attachBatch (uploaded.map Prod.snd) then
          (uploaded, (new_step1 env items).2, some vid)
        else
          ([], (new_step1 env items).2 ++
            (new_step1 env items).1.map
              (fun s => ⟨s.article_id,
                "Batch attach failed: Failed to attach files to vector store"⟩),
            some vid)
      | none =>
        match env.createVectorStore with
        | none => ([], (new_step1 env items).2, none)
        | some vid =>
          if env.attachBatch (uploaded.map Prod.snd) then
            (uploaded, (new_step1 env items).2, some vid)
          else
            ([], (new_step1 env items).2 ++
              (new_step1 env items).1.map
                (fun s => ⟨s.article_id,
                  "Batch attach failed: Failed to attach files to vector store"⟩),
              some vid)

/-- Step 1 of `process_updated_articles` (batch_runner.py lines
222-260): look up the old external id (a missing or falsy id is a
failure, never treated as new), then fetch and save the new content.
Returns (successfully_saved, failed). -/
def upd_step1 (env : Env) (m : Mapping) :
    List Article → List UpdSavedItem × List Failure
  | [] => ([], [])
  | a :: rest =>
    let r := upd_step1 env m rest
    match dictGet m a.id with
    | none => (r.1, ⟨a.id, "No old file_id in mapping"⟩ :: r.2)
    | some old =>
      if old = "" then (r.1, ⟨a.id, "No old file_id in mapping"⟩ :: r.2)
      else
        match env.fetchSave a with
        | .ok path => (⟨a.id, path, a.title, old⟩ :: r.1, r.2)
        | .error e => (r.1, ⟨a.id, e⟩ :: r.2)

/-- `BatchRunner.process_updated_articles` (batch_runner.py lines
212-334): step 1 as `upd_step1`; best-effort batch detach and batch
delete of the old external ids (results discarded); then batch upload
and batch attach of the new files with the same all-or-nothing handling
as the new pipeline.  Returns `(uploaded_files, failed_articles)`. -/
def process_updated_articles (env : Env) (_vsId : Option String)
    (m : Mapping) (items : List Article) : Mapping × List Failure :=
  if (upd_step1 env m items).1 = [] then ([], (upd_step1 env m items).2)
  else
    let _ := env.removeFromVectorStore
      ((upd_step1 env m items).1.map UpdSavedItem.old_file_id)
    let _ := env.deleteFromOpenai
      ((upd_step1 env m items).1.map UpdSavedItem.old_file_id)
    match env.uploadBatch ((upd_step1 env m items).1.map UpdSavedItem.file_path) with
    | .error e =>
      ([], (upd_step1 env m items).2 ++
        (upd_step1 env m items).1.map
          (fun s => ⟨s.article_id, "Batch upload failed: " ++ e⟩))
    | .ok uploaded =>
      if env.attachBatch (uploaded.map Prod.snd) then
        (uploaded, (upd_step1 env m items).2)
      else
        ([], (upd_step1 env m items).2 ++
          (upd_step1 env m items).1.map
            (fun s => ⟨s.article_id,
              "Batch attach failed: Failed to attach files to vector store"⟩))

/-- Step 1 of `process_deleted_articles` (batch_runner.py lines
346-372): an id without a (truthy) file id in the mapping is skipped;
otherwise the local `.md` files are unlinked, collecting
(file_ids_to_remove, successfully_deleted_files, failed). -/
def del_step1 (env : Env) (m : Mapping) :
    List String → List String × List String × List Failure
  | [] => ([], [], [])
  | i :: rest =>
    let r := del_step1 env m rest
    match dictGet m i with
    | none => r
    | some fid =>
      if fid = "" then r
      else
        match env.localDelete i with
        | .ok _ => (fid :: r.1, i :: r.2.1, r.2.2)
        | .error e => (r.1, r.2.1, ⟨i, e⟩ :: r.2.2)

/-- `BatchRunner.process_deleted_articles` (batch_runner.py lines
336-401): delete local files per id, then best-effort batch remove from
the vector store and batch delete from OpenAI storage (both outcomes
discarded).  Returns `(successfully_deleted_files, failed_articles)`,
which do not depend on the remote cleanup outcomes. -/
def process_deleted_articles (env : Env) (m : Mapping)
    (ids : List String) : List String × List Failure :=
  if (del_step1 env m ids).1 = [] then
    ((del_step1 env m ids).2.1, (del_step1 env m ids).2.2)
  else
    let _ := env.removeFromVectorStore (del_step1 env m ids).1
    let _ := env.deleteFromOpenai (del_step1 env m ids).1
    ((del_step1 env m ids).2.1, (del_step1 env m ids).2.2)

/-- The deletion commit loop of `run_delta_sync` (batch_runner.py lines
507-510): `for article_id in deleted_processed: if article_id in
self.file_mapping: del self.file_mapping[article_id]`. -/
def commit_deletes (m : Mapping) (succ : List String) : Mapping :=
  succ.foldl (fun acc i => if hasKey acc i then dictErase acc i else acc) m

/-- Observable steps of a run, used to state ordering and persistence
properties of the orchestration. -/
inductive Event where
  | fetchList
  | detect
  | procNew
  | procUpdated
  | procDeleted
  | saveMapping
  | saveTimestamp
  | fullSync
deriving DecidableEq

/-- Outcome of a run: the boolean the method returns, the runner state
after the run, and the trace of observable steps in order. -/
structure RunResult where
  ok : Bool
  finalState : RunnerState
  trace : List Event
deriving DecidableEq

/-- `BatchRunner.is_first_run` (batch_runner.py lines 64-68): first run
iff the last-run file is missing, or the mapping file is missing, or the
loaded mapping is empty (Python truthiness of the dict). -/
def is_first_run (s : RunnerState) : Bool :=
  !s.last_run_file_exists || !s.mapping_file_exists || s.file_mapping.isEmpty

/-- The page loop of `ZendeskScraper.fetch_articles_list` (scraper.py
lines 27-49): while fewer than `maxA` articles are accumulated, fetch
the next page; stop on a request error or an empty page.  Each loop
iteration appends at least one article, so at most `maxA` iterations
run; the explicit fuel `maxA + 1` therefore never runs out and only
makes the recursion structural. -/
def fetch_pages_loop (pages : Nat → Option (List Article)) (maxA : Nat) :
    Nat → Nat → List Article → List Article
  | 0, _, acc => acc
  | fuel + 1, page, acc =>
    if acc.length < maxA then
      match pages page with
      | none => acc
      | some [] => acc
      | some (a :: rest) => fetch_pages_loop pages maxA fuel (page + 1) (acc ++ a :: rest)
    else acc

/-- `ZendeskScraper.fetch_articles_list` (scraper.py lines 23-53): the
page loop starting at page 1 followed by `articles[:max_articles]`. -/
def fetch_articles_list (pages : Nat → Option (List Article)) (maxA : Nat) :
    List Article :=
  (fetch_pages_loop pages maxA (maxA + 1) 1 []).take maxA

/-- `BatchRunner.run_full_sync` (batch_runner.py lines 403-448): scrape
everything, upload everything, replace the mapping with the uploaded
files, persist the mapping, record the vector store id, persist a fresh
timestamp.  Any step failing (falsy result or exception) returns
`False`. -/
def run_full_sync (env : Env) (maxA : Nat) (s : RunnerState) : RunResult :=
  if (env.scrapeAll maxA).isEmpty then ⟨false, s, [Event.fullSync]⟩
  else
    match env.uploadAll with
    | none => ⟨false, s, [Event.fullSync]⟩
    | some r =>
      if env.saveMappingOk then
        if env.saveTimestampOk then
          ⟨true,
            { s with
                file_mapping := r.1
                mapping_file_exists := true
                vector_store_id := some r.2
                last_run_file_exists := true
                last_run_timestamp := some env.now },
            [Event.fullSync, Event.saveMapping, Event.saveTimestamp]⟩
        else
          ⟨false,
            { s with
                file_mapping := r.1
                mapping_file_exists := true
                vector_store_id := some r.2 },
            [Event.fullSync, Event.saveMapping]⟩
      else ⟨false, { s with file_mapping := r.1 }, [Event.fullSync]⟩

/-- Step 3 of `run_delta_sync` (batch_runner.py lines 484-490): when
there are new articles, run the new pipeline and merge its mapping
entries (`self.file_mapping.update(new_processed)`), keeping the
possibly freshly created vector store id. -/
def step_new (env : Env) (s : RunnerState) (c : ChangeSet) :
    RunnerState × List Event :=
  if c.new = [] then (s, [])
  else
    ({ s with
        file_mapping := dictUpdate s.file_mapping
          (process_new_articles env s.vector_store_id c.new).1
        vector_store_id :=
          (process_new_articles env s.vector_store_id c.new).2.2 },
      [Event.procNew])

/-- Step 4 of `run_delta_sync` (batch_runner.py lines 493-499): when
there are updated articles, run the updated pipeline and merge its
mapping entries. -/
def step_updated (env : Env) (s : RunnerState) (c : ChangeSet) :
    RunnerState × List Event :=
  if c.updated = [] then (s, [])
  else
    ({ s with
        file_mapping := dictUpdate s.file_mapping
          (process_updated_articles env s.vector_store_id s.file_mapping
            c.updated).1 },
      [Event.procUpdated])

/-- Step 5 of `run_delta_sync` (batch_runner.py lines 502-510): when
there are deleted ids, run the deleted pipeline and erase every
successfully processed id from the mapping. -/
def step_deleted (env : Env) (s : RunnerState) (c : ChangeSet) :
    RunnerState × List Event :=
  if c.deleted = [] then (s, [])
  else
    ({ s with
        file_mapping := commit_deletes s.file_mapping
          (process_deleted_articles env s.file_mapping c.deleted).1 },
      [Event.procDeleted])

/-- The shared change set of one incremental run. -/
def delta_changes (env : Env) (maxA : Nat) (s : RunnerState) : ChangeSet :=
  detect_changes s.file_mapping s.last_run_timestamp
    (fetch_articles_list env.pages maxA)

/-- State and events after step 3 of `run_delta_sync` (the new
pipeline, batch_runner.py lines 484-490). -/
def delta_step1 (env : Env) (maxA : Nat) (s : RunnerState) :
    RunnerState × List Event :=
  step_new env s (delta_changes env maxA s)

/-- State and events after step 4 of `run_delta_sync` (the updated
pipeline, batch_runner.py lines 493-499). -/
def delta_step2 (env : Env) (maxA : Nat) (s : RunnerState) :
    RunnerState × List Event :=
  step_updated env (delta_step1 env maxA s).1 (delta_changes env maxA s)

/-- State and events after step 5 of `run_delta_sync` (the deleted
pipeline, batch_runner.py lines 502-510). -/
def delta_step3 (env : Env) (maxA : Nat) (s : RunnerState) :
    RunnerState × List Event :=
  step_deleted env (delta_step2 env maxA s).1 (delta_changes env maxA s)

/-- Trace of one incremental run up to and including the category
pipelines, before the state is persisted. -/
def delta_trace3 (env : Env) (maxA : Nat) (s : RunnerState) : List Event :=
  [Event.fetchList, Event.detect] ++ (delta_step1 env maxA s).2 ++
    (delta_step2 env maxA s).2 ++ (delta_step3 env maxA s).2

/-- `BatchRunner.run_delta_sync` (batch_runner.py lines 450-536): fall
back to a full sync on a first run; abort (`False`) when the listing is
empty; return `True` immediately when no changes are detected; otherwise
run the three category pipelines in order new, updated, deleted, then
persist the mapping (step 6) and a fresh timestamp.  An exception from
either persistence step aborts with `False`. -/
def run_delta_sync (env : Env) (maxA : Nat) (s : RunnerState) : RunResult :=
  if is_first_run s then run_full_sync env maxA s
  else
    if fetch_articles_list env.pages maxA = [] then
      ⟨false, s, [Event.fetchList]⟩
    else
      if totalChanges (delta_changes env maxA s) = 0 then
        ⟨true, s, [Event.fetchList, Event.detect]⟩
      else
        if env.saveMappingOk then
          if env.saveTimestampOk then
            ⟨true,
              { (delta_step3 env maxA s).1 with
                  mapping_file_exists := true
                  last_run_file_exists := true
                  last_run_timestamp := some env.now },
              delta_trace3 env maxA s ++
                [Event.saveMapping, Event.saveTimestamp]⟩
          else
            ⟨false, { (delta_step3 env maxA s).1 with mapping_file_exists := true },
              delta_trace3 env maxA s ++ [Event.saveMapping]⟩
        else
          ⟨false, (delta_step3 env maxA s).1, delta_trace3 env maxA s⟩

/-- A concrete environment in which every external call succeeds, used
as the base of the concrete scenarios below. -/
def baseEnv : Env where
  pages := fun n => if n = 1 then some [⟨"1", "t1", "T5"⟩] else some []
  scrapeAll := fun _ => [⟨"1", "t1", "T5"⟩]
  uploadAll := some ([("1", "fileX")], "vs1")
  fetchSave := fun a => .ok ("articles/t-" ++ a.id ++ ".md")
  uploadBatch := fun ps => .ok (ps.map (fun p => (extractArticleId p, "fid-" ++ extractArticleId p)))
  createVectorStore := some "vs1"
  attachBatch := fun _ => true
  removeFromVectorStore := fun _ => true
  deleteFromOpenai := fun _ => true
  localDelete := fun _ => .ok ()
  saveMappingOk := true
  saveTimestampOk := true
  now := "2026-02-03T00:00:00"

theorem dictUpdate_nil (m : Mapping) : dictUpdate m [] = m := rfl

theorem dictGet_eq_none_iff (m : Mapping) (k : String) :
    dictGet m k = none ↔ hasKey m k = false := by
  simp [dictGet, hasKey, Option.map_eq_none', List.find?_eq_none,
    List.any_eq_false]

theorem hasKey_dictErase_self (m : Mapping) (k : String) :
    hasKey (dictErase m k) k = false := by
  simp only [hasKey, dictErase, List.any_eq_false]
  intro p hp
  have := (List.mem_filter.mp hp).2
  simpa [bne_iff_ne] using this

theorem hasKey_dictErase_of_false (m : Mapping) (j k : String)
    (h : hasKey m k = false) : hasKey (dictErase m j) k = false := by
  simp only [hasKey, List.any_eq_false] at h ⊢
  intro p hp
  exact h p (List.mem_filter.mp hp).1

theorem hasKey_commit_step_self (m : Mapping) (j : String) :
    hasKey (if hasKey m j then dictErase m j else m) j = false ∨
    (hasKey m j = false ∧ (if hasKey m j then dictErase m j else m) = m) := by
  by_cases hk : hasKey m j = true
  · left
    rw [if_pos hk]
    exact hasKey_dictErase_self m j
  · right
    rw [Bool.not_eq_true] at hk
    rw [hk]
    exact ⟨rfl, by simp⟩

theorem commit_deletes_preserves_absent (succ : List String) :
    ∀ m : Mapping, ∀ k : String, hasKey m k = false →
      hasKey (commit_deletes m succ) k = false := by
  induction succ with
  | nil => intro m k h; exact h
  | cons j rest ih =>
    intro m k h
    show hasKey (commit_deletes
      (if hasKey m j then dictErase m j else m) rest) k = false
    apply ih
    by_cases hj : hasKey m j = true
    · rw [if_pos hj]
      exact hasKey_dictErase_of_false m j k h
    · rw [Bool.not_eq_true] at hj
      rw [hj]
      simpa using h

theorem commit_deletes_removes (succ : List String) :
    ∀ m : Mapping, ∀ i : String, i ∈ succ →
      hasKey (commit_deletes m succ) i = false := by
  induction succ with
  | nil => intro m i hi; cases hi
  | cons j rest ih =>
    intro m i hi
    show hasKey (commit_deletes
      (if hasKey m j then dictErase m j else m) rest) i = false
    rcases List.mem_cons.mp hi with hij | hir
    · subst hij
      apply commit_deletes_preserves_absent
      by_cases hj : hasKey m i = true
      · rw [if_pos hj]
        exact hasKey_dictErase_self m i
      · rw [Bool.not_eq_true] at hj
        rw [hj]
        simpa using hj
    · exact ih _ i hir

theorem find?_map_overwrite (k1 v k : String) (h : k1 ≠ k) :
    ∀ m : Mapping,
      (m.map (fun p => if p.1 == k1 then (k1, v) else p)).find?
          (fun p => p.1 == k) =
        m.find? (fun p => p.1 == k) := by
  intro m
  induction m with
  | nil => rfl
  | cons q rest ih =>
    by_cases hq : q.1 == k1
    · have hq1 : q.1 = k1 := by simpa using hq
      have hqk : (q.1 == k) = false := by
        simp [hq1, h]
      simp only [List.map_cons, List.find?_cons, hq, if_true]
      have hk1k : ((k1, v).1 == k) = false := by simp [h]
      rw [hk1k, hqk]
      simpa using ih
    · simp only [List.map_cons, List.find?_cons,
        Bool.not_eq_true] at hq ⊢
      rw [hq]
      simp only [Bool.false_eq_true, if_false]
      cases hqk : (q.1 == k) with
      | true => simp [List.find?_cons, hqk]
      | false => simpa [List.find?_cons, hqk] using ih

theorem find?_append_single_ne (k1 v k : String) (h : k1 ≠ k) :
    ∀ m : Mapping,
      ((m ++ [(k1, v)]).find? (fun p => p.1 == k)) =
        m.find? (fun p => p.1 == k) := by
  intro m
  induction m with
  | nil =>
    simp [List.find?_cons, h]
  | cons q rest ih =>
    cases hqk : (q.1 == k) with
    | true => simp [List.find?_cons, hqk]
    | false => simpa [List.find?_cons, hqk] using ih

theorem dictGet_dictInsert_ne (m : Mapping) (k1 v k : String)
    (h : k1 ≠ k) : dictGet (dictInsert m k1 v) k = dictGet m k := by
  unfold dictInsert dictGet
  by_cases hk : hasKey m k1 = true
  · rw [if_pos hk, find?_map_overwrite k1 v k h]
  · rw [Bool.not_eq_true] at hk
    rw [hk]
    simp only [Bool.false_eq_true, if_false]
    rw [find?_append_single_ne k1 v k h]

theorem dictGet_dictUpdate_of_not_mem (l : Mapping) :
    ∀ m : Mapping, ∀ k : String, (∀ pr ∈ l, pr.1 ≠ k) →
      dictGet (dictUpdate m l) k = dictGet m k := by
  induction l with
  | nil => intro m k _; rfl
  | cons pr rest ih =>
    intro m k h
    show dictGet (dictUpdate (dictInsert m pr.1 pr.2) rest) k = dictGet m k
    rw [ih (dictInsert m pr.1 pr.2) k (fun q hq => h q (List.mem_cons_of_mem _ hq))]
    exact dictGet_dictInsert_ne m pr.1 pr.2 k (h pr (List.mem_cons_self _ _))

theorem hasKey_dictInsert_elim (m : Mapping) (k1 v k : String)
    (h : hasKey (dictInsert m k1 v) k = true) :
    k = k1 ∨ hasKey m k = true := by
  unfold dictInsert at h
  by_cases hk : hasKey m k1 = true
  · rw [if_pos hk] at h
    simp only [hasKey, List.any_eq_true] at h ⊢
    obtain ⟨p, hp, hpk⟩ := h
    obtain ⟨q, hq, rfl⟩ := List.mem_map.mp hp
    by_cases hq1 : q.1 == k1
    · left
      rw [hq1] at hpk
      simp only [if_true] at hpk
      have hk1 : k1 = k := by simpa using hpk
      exact hk1.symm
    · right
      simp only [Bool.not_eq_true] at hq1
      rw [hq1] at hpk
      simp only [Bool.false_eq_true, if_false] at hpk
      exact ⟨q, hq, hpk⟩
  · rw [Bool.not_eq_true] at hk
    rw [hk] at h
    simp only [Bool.false_eq_true, if_false] at h
    simp only [hasKey, List.any_eq_true] at h ⊢
    obtain ⟨p, hp, hpk⟩ := h
    rcases List.mem_append.mp hp with hm | hs
    · right; exact ⟨p, hm, hpk⟩
    · left
      have hp1 : p = (k1, v) := List.mem_singleton.mp hs
      subst hp1
      have hk1 : k1 = k := by simpa using hpk
      exact hk1.symm

theorem upload_keys_from_paths (perFile : String → Option String)
    (k : String) :
    ∀ paths : List String, ∀ acc : Mapping,
      hasKey (paths.foldl (upload_step perFile) acc) k = true →
      hasKey acc k = true ∨
        ∃ p ∈ paths, (perFile p).isSome = true ∧ extractArticleId p = k := by
  intro paths
  induction paths with
  | nil => intro acc h; exact Or.inl h
  | cons p rest ih =>
    intro acc h
    rcases ih (upload_step perFile acc p) h with hacc | ⟨q, hq, hqs, hqk⟩
    · unfold upload_step at hacc
      cases hpf : perFile p with
      | none => rw [hpf] at hacc; exact Or.inl hacc
      | some fid =>
        rw [hpf] at hacc
        rcases hasKey_dictInsert_elim acc (extractArticleId p) fid k hacc
          with hke | hacc2
        · exact Or.inr ⟨p, List.mem_cons_self _ _, by simp [hpf], hke.symm⟩
        · exact Or.inl hacc2
    · exact Or.inr ⟨q, List.mem_cons_of_mem _ hq, hqs, hqk⟩

theorem new_step1_mem_saved (env : Env) {a : Article} {p : String}
    (hfa : env.fetchSave a = .ok p) :
    ∀ items : List Article, a ∈ items →
      (⟨a.id, p, a.title⟩ : SavedItem) ∈ (new_step1 env items).1 := by
  intro items
  induction items with
  | nil => intro ha; cases ha
  | cons b rest ih =>
    intro ha
    rcases List.mem_cons.mp ha with hb | hrest
    · subst hb
      simp only [new_step1, hfa]
      exact List.mem_cons_self _ _
    · cases hfb : env.fetchSave b with
      | ok q =>
        simp only [new_step1, hfb]
        exact List.mem_cons_of_mem _ (ih hrest)
      | error e =>
        simp only [new_step1, hfb]
        exact ih hrest

theorem new_step1_failures (env : Env) :
    ∀ items : List Article, ∀ f ∈ (new_step1 env items).2,
      ∃ b ∈ items, env.fetchSave b = .error f.error ∧ f.id = b.id := by
  intro items
  induction items with
  | nil => intro f hf; cases hf
  | cons b rest ih =>
    intro f hf
    cases hfb : env.fetchSave b with
    | ok q =>
      simp only [new_step1, hfb] at hf
      obtain ⟨c, hc, hcf⟩ := ih f hf
      exact ⟨c, List.mem_cons_of_mem _ hc, hcf⟩
    | error e =>
      simp only [new_step1, hfb] at hf
      rcases List.mem_cons.mp hf with hfe | hfr
      · subst hfe
        exact ⟨b, List.mem_cons_self _ _, hfb, rfl⟩
      · obtain ⟨c, hc, hcf⟩ := ih f hfr
        exact ⟨c, List.mem_cons_of_mem _ hc, hcf⟩

/-- Claim C5: if the batch upload call of the new-item pipeline raises,
every item of that batch (the successfully saved articles) is marked
failed, the returned uploaded mapping is empty, and merging it into any
persisted mapping leaves the mapping unchanged — no item of the batch
acquires a mapping entry. -/
theorem process_new_batch_upload_atomic (env : Env) (vsId : Option String)
    (items : List Article) (e : String)
    (hup : env.uploadBatch ((new_step1 env items).1.map SavedItem.file_path) =
      .error e) :
    (process_new_articles env vsId items).1 = [] ∧
    (∀ s ∈ (new_step1 env items).1,
      ∃ f ∈ (process_new_articles env vsId items).2.1, f.id = s.article_id) ∧
    (∀ mp : Mapping,
      dictUpdate mp (process_new_articles env vsId items).1 = mp) := by
  by_cases hsaved : (new_step1 env items).1 = []
  · unfold process_new_articles
    rw [if_pos hsaved]
    refine ⟨rfl, ?_, fun mp => rfl⟩
    intro s hs
    rw [hsaved] at hs
    cases hs
  · unfold process_new_articles
    rw [if_neg hsaved, hup]
    refine ⟨rfl, ?_, fun mp => rfl⟩
    intro s hs
    refine ⟨⟨s.article_id, "Batch upload failed: " ++ e⟩, ?_, rfl⟩
    exact List.mem_append.mpr (Or.inr (List.mem_map.mpr ⟨s, hs, rfl⟩))

/-- Claim C5 witness: a concrete batch of one fetched-and-saved article
whose batch upload raises; the pipeline reports it failed and adds no
mapping entry. -/
theorem process_new_batch_upload_atomic_witness :
    ({ baseEnv with uploadBatch := fun _ => .error "boom" } : Env).uploadBatch
        ((new_step1 { baseEnv with uploadBatch := fun _ => .error "boom" }
          [⟨"1", "t1", "T5"⟩]).1.map SavedItem.file_path) = .error "boom" ∧
    ((process_new_articles { baseEnv with uploadBatch := fun _ => .error "boom" }
        (some "vs1") [⟨"1", "t1", "T5"⟩]).1 = [] ∧
     (∀ s ∈ (new_step1 { baseEnv with uploadBatch := fun _ => .error "boom" }
          [⟨"1", "t1", "T5"⟩]).1,
        ∃ f ∈ (process_new_articles
            { baseEnv with uploadBatch := fun _ => .error "boom" }
            (some "vs1") [⟨"1", "t1", "T5"⟩]).2.1, f.id = s.article_id) ∧
     (∀ mp : Mapping,
        dictUpdate mp (process_new_articles
          { baseEnv with uploadBatch := fun _ => .error "boom" }
          (some "vs1") [⟨"1", "t1", "T5"⟩]).1 = mp)) :=
  ⟨rfl,
    process_new_batch_upload_atomic
      { baseEnv with uploadBatch := fun _ => .error "boom" }
      (some "vs1") [⟨"1", "t1", "T5"⟩] "boom" rfl⟩

theorem del_step1_mem_succ (env : Env) (m : Mapping) {i fid : String}
    (hget : dictGet m i = some fid) (hfid : fid ≠ "")
    (hdel : env.localDelete i = .ok ()) :
    ∀ ids : List String, i ∈ ids → i ∈ (del_step1 env m ids).2.1 := by
  intro ids
  induction ids with
  | nil => intro hi; cases hi
  | cons j rest ih =>
    intro hi
    rcases List.mem_cons.mp hi with hij | hir
    · subst hij
      simp only [del_step1, hget, if_neg hfid, hdel]
      exact List.mem_cons_self _ _
    · have hmem : i ∈ (del_step1 env m rest).2.1 := ih hir
      cases hgj : dictGet m j with
      | none => simpa only [del_step1, hgj] using hmem
      | some fj =>
        by_cases hfj : fj = ""
        · simpa only [del_step1, hgj, if_pos hfj] using hmem
        · cases hdj : env.localDelete j with
          | ok u =>
            simp only [del_step1, hgj, if_neg hfj, hdj]
            exact List.mem_cons_of_mem _ hmem
          | error e =>
            simpa only [del_step1, hgj, if_neg hfj, hdj] using hmem

theorem process_deleted_eq_step1 (env : Env) (m : Mapping)
    (ids : List String) :
    process_deleted_articles env m ids =
      ((del_step1 env m ids).2.1, (del_step1 env m ids).2.2) := by
  unfold process_deleted_articles
  split <;> rfl

theorem del_step1_depends_only_on_localDelete (env env' : Env)
    (h : env'.localDelete = env.localDelete) (m : Mapping) :
    ∀ ids : List String, del_step1 env' m ids = del_step1 env m ids := by
  intro ids
  induction ids with
  | nil => rfl
  | cons j rest ih =>
    simp only [del_step1, ih, h]

/-- Claim C6: after the deleted pipeline runs and its result is
committed, every id whose local artifact removal succeeded is absent
from the mapping; the committed result is the same for every environment
with the same local-deletion outcomes, so failing remote detach and
delete calls cannot keep the id in the mapping. -/
theorem process_deleted_commit_removes_mapping (env : Env) (m : Mapping)
    (ids : List String) (i fid : String)
    (hi : i ∈ ids) (hget : dictGet m i = some fid) (hfid : fid ≠ "")
    (hdel : env.localDelete i = .ok ()) :
    i ∈ (process_deleted_articles env m ids).1 ∧
    dictGet (commit_deletes m (process_deleted_articles env m ids).1) i =
      none ∧
    (∀ env' : Env, env'.localDelete = env.localDelete →
      commit_deletes m (process_deleted_articles env' m ids).1 =
        commit_deletes m (process_deleted_articles env m ids).1) := by
  have hsucc : i ∈ (del_step1 env m ids).2.1 :=
    del_step1_mem_succ env m hget hfid hdel ids hi
  refine ⟨?_, ?_, ?_⟩
  · rw [process_deleted_eq_step1]
    exact hsucc
  · rw [process_deleted_eq_step1]
    rw [dictGet_eq_none_iff]
    exact commit_deletes_removes _ m i hsucc
  · intro env' henv
    rw [process_deleted_eq_step1, process_deleted_eq_step1,
      del_step1_depends_only_on_localDelete env env' henv]

/-- Claim C6 witness: one tracked id whose local file deletion succeeds
while both remote cleanup calls fail; after the commit the id is gone
from the mapping. -/
theorem process_deleted_commit_removes_mapping_witness :
    ("1" ∈ (["1"] : List String)) ∧
    dictGet [("1", "f1")] "1" = some "f1" ∧
    ("f1" : String) ≠ "" ∧
    ({ baseEnv with
        removeFromVectorStore := fun _ => false
        deleteFromOpenai := fun _ => false } : Env).localDelete "1" = .ok () ∧
    ("1" ∈ (process_deleted_articles
        { baseEnv with
            removeFromVectorStore := fun _ => false
            deleteFromOpenai := fun _ => false } [("1", "f1")] ["1"]).1 ∧
     dictGet (commit_deletes [("1", "f1")]
        (process_deleted_articles
          { baseEnv with
              removeFromVectorStore := fun _ => false
              deleteFromOpenai := fun _ => false } [("1", "f1")] ["1"]).1)
        "1" = none ∧
     (∀ env' : Env,
        env'.localDelete =
          ({ baseEnv with
              removeFromVectorStore := fun _ => false
              deleteFromOpenai := fun _ => false } : Env).localDelete →
        commit_deletes [("1", "f1")]
            (process_deleted_articles env' [("1", "f1")] ["1"]).1 =
          commit_deletes [("1", "f1")]
            (process_deleted_articles
              { baseEnv with
                  removeFromVectorStore := fun _ => false
                  deleteFromOpenai := fun _ => false } [("1", "f1")] ["1"]).1)) :=
  ⟨by decide, by decide, by decide, rfl,
    process_deleted_commit_removes_mapping
      { baseEnv with
          removeFromVectorStore := fun _ => false
          deleteFromOpenai := fun _ => false }
      [("1", "f1")] ["1"] "1" "f1" (by decide) (by decide) (by decide) rfl⟩

theorem detect_changes_deleted_iff (m : Mapping) (t : Option String)
    (articles : List Article) (i : String) :
    i ∈ (detect_changes m t articles).deleted ↔
      (i ∈ dictKeys m ∧ i ∉ idsOf articles) := by
  simp only [detect_changes, List.mem_filter, Bool.not_eq_true',
    List.any_eq_false, idsOf, List.mem_map]
  constructor
  · rintro ⟨hkeys, hall⟩
    refine ⟨hkeys, ?_⟩
    rintro ⟨a, ha, rfl⟩
    exact absurd (beq_self_eq_true a.id) (by simpa using hall a ha)
  · rintro ⟨hkeys, hnone⟩
    refine ⟨hkeys, ?_⟩
    intro a ha
    by_contra hbe
    exact hnone ⟨a, ha, by simpa using hbe⟩

/-- Claim C9 (amended): the article list fetched at the start of a run
contains at most `maxA` items (`articles[:max_articles]` at scraper.py
line 51), and every article the new, updated or unchanged pipelines
would process comes from that bounded list; a tracked item beyond the
bound, however, is absent from the listing, so its id is classified
`deleted` — exactly the tracked ids missing from the bounded listing —
and the deleted pipeline does process it. -/
theorem fetch_articles_list_respects_max
    (pages : Nat → Option (List Article)) (maxA : Nat)
    (m : Mapping) (t : Option String) :
    (fetch_articles_list pages maxA).length ≤ maxA ∧
    (detect_changes m t (fetch_articles_list pages maxA)).new ⊆
      fetch_articles_list pages maxA ∧
    (detect_changes m t (fetch_articles_list pages maxA)).updated ⊆
      fetch_articles_list pages maxA ∧
    (detect_changes m t (fetch_articles_list pages maxA)).unchanged ⊆
      fetch_articles_list pages maxA ∧
    (∀ i : String,
      i ∈ (detect_changes m t (fetch_articles_list pages maxA)).deleted ↔
        (i ∈ dictKeys m ∧ i ∉ idsOf (fetch_articles_list pages maxA))) := by
  refine ⟨?_, ?_, ?_, ?_, ?_⟩
  · exact List.length_take_le maxA _
  · exact (classify_subset m t (fetch_articles_list pages maxA)).1
  · exact (classify_subset m t (fetch_articles_list pages maxA)).2.1
  · exact (classify_subset m t (fetch_articles_list pages maxA)).2.2
  · exact detect_changes_deleted_iff m t (fetch_articles_list pages maxA)

def stC9 : RunnerState :=
  ⟨true, true, some "T9", [("1", "f1"), ("2", "f2")], some "vs1"⟩

def envC9 : Env :=
  { baseEnv with
      pages := fun n =>
        if n = 1 then some [⟨"1", "t1", "T0"⟩, ⟨"2", "t2", "T0"⟩]
        else some [] }

/-- Claim C9 counterexample: with `maxItems = 1` the source offers two
articles but the listing is truncated to the first; the tracked second
item is beyond the bound and not listed, yet its id "2" is classified
`deleted`, the deleted pipeline processes it (it lands in
`successfully_deleted_files`), the run executes the deleted category,
and the commit erases the id from the mapping — so an item beyond the
bound is processed by a category pipeline in that run. -/
theorem fetch_bound_truncated_item_hits_deleted_pipeline :
    (⟨"2", "t2", "T0"⟩ : Article) ∉ fetch_articles_list envC9.pages 1 ∧
    "2" ∈ (delta_changes envC9 1 stC9).deleted ∧
    "2" ∈ (process_deleted_articles envC9 stC9.file_mapping
      (delta_changes envC9 1 stC9).deleted).1 ∧
    Event.procDeleted ∈ (run_delta_sync envC9 1 stC9).trace ∧
    hasKey (run_delta_sync envC9 1 stC9).finalState.file_mapping "2" =
      false := by
  decide

/-- Claim C10: in the batch register step, a failure to upload one
individual file is caught inside the loop of `upload_files_to_openai`
and the loop continues; the call returns a mapping containing only the
files that uploaded successfully, and an article whose own upload failed
is silently omitted: its id gets no entry in the returned mapping, it
appears in no failure record of the pipeline result, and merging the
pipeline result into the persisted mapping adds no entry for it.
Hypotheses: the article was fetched and saved to `p`, its upload fails,
ids are unique in the batch, and no other saved file extracts to its
id. -/
theorem upload_per_file_failure_silently_omitted (env : Env)
    (perFile : String → Option String) (items : List Article)
    (a : Article) (p v : String) (mp : Mapping)
    (hub : env.uploadBatch =
      fun ps => Except.ok (upload_files_to_openai perFile ps))
    (hat : ∀ l, env.attachBatch l = true)
    (ha : a ∈ items)
    (hfs : env.fetchSave a = .ok p)
    (hpf : perFile p = none)
    (hid : ∀ b ∈ items, b.id = a.id → b = a)
    (hkey : ∀ s ∈ (new_step1 env items).1,
      extractArticleId s.file_path = a.id → s.file_path = p) :
    dictGet (process_new_articles env (some v) items).1 a.id = none ∧
    (∀ f ∈ (process_new_articles env (some v) items).2.1, f.id ≠ a.id) ∧
    dictGet (dictUpdate mp (process_new_articles env (some v) items).1)
        a.id = dictGet mp a.id := by
  have hsavedmem : (⟨a.id, p, a.title⟩ : SavedItem) ∈ (new_step1 env items).1 :=
    new_step1_mem_saved env hfs items ha
  have hsne : (new_step1 env items).1 ≠ [] := List.ne_nil_of_mem hsavedmem
  have hres : process_new_articles env (some v) items =
      (upload_files_to_openai perFile
        ((new_step1 env items).1.map SavedItem.file_path),
       (new_step1 env items).2, some v) := by
    unfold process_new_articles
    rw [if_neg hsne, hub]
    simp only [hat, if_true]
  have hnokey : hasKey (upload_files_to_openai perFile
      ((new_step1 env items).1.map SavedItem.file_path)) a.id = false := by
    by_contra hcon
    rw [Bool.not_eq_false] at hcon
    rcases upload_keys_from_paths perFile a.id
        ((new_step1 env items).1.map SavedItem.file_path) [] hcon with
      hnil | ⟨q, hq, hqs, hqk⟩
    · simp [hasKey] at hnil
    · obtain ⟨s, hs, rfl⟩ := List.mem_map.mp hq
      have hsp : s.file_path = p := hkey s hs hqk
      rw [hsp, hpf] at hqs
      cases hqs
  refine ⟨?_, ?_, ?_⟩
  · rw [hres]
    rw [dictGet_eq_none_iff]
    exact hnokey
  · rw [hres]
    intro f hf heq
    obtain ⟨b, hb, hberr, hbid⟩ := new_step1_failures env items f hf
    have hba : b = a := hid b hb (by rw [← hbid, heq])
    rw [hba, hfs] at hberr
    cases hberr
  · rw [hres]
    apply dictGet_dictUpdate_of_not_mem
    intro pr hpr
    intro hcon
    have : hasKey (upload_files_to_openai perFile
        ((new_step1 env items).1.map SavedItem.file_path)) a.id = true := by
      simp only [hasKey, List.any_eq_true]
      exact ⟨pr, hpr, by simp [hcon]⟩
    rw [this] at hnokey
    cases hnokey

-- concrete inputs for the C10 witness
def perFileC10 : String → Option String :=
  fun p => if p = "articles/t-1.md" then none else some "fid2"

def envC10 : Env :=
  { baseEnv with
      uploadBatch := fun ps => Except.ok (upload_files_to_openai perFileC10 ps) }

def itemsC10 : List Article := [⟨"1", "t1", "T5"⟩, ⟨"2", "t2", "T5"⟩]

/-- Claim C10 witness: two saved articles, the upload of the first one
fails individually; it ends up with no mapping entry and in no failure
list, while the run continues. -/
theorem upload_per_file_failure_silently_omitted_witness :
    ((⟨"1", "t1", "T5"⟩ : Article) ∈ itemsC10) ∧
    perFileC10 "articles/t-1.md" = none ∧
    (dictGet (process_new_articles envC10 (some "vs1") itemsC10).1
        (Article.id ⟨"1", "t1", "T5"⟩) = none ∧
     (∀ f ∈ (process_new_articles envC10 (some "vs1") itemsC10).2.1,
        f.id ≠ Article.id ⟨"1", "t1", "T5"⟩) ∧
     dictGet (dictUpdate [("9", "f9")]
         (process_new_articles envC10 (some "vs1") itemsC10).1)
         (Article.id ⟨"1", "t1", "T5"⟩) =
       dictGet [("9", "f9")] (Article.id ⟨"1", "t1", "T5"⟩)) :=
  ⟨by decide, by decide,
    upload_per_file_failure_silently_omitted envC10 perFileC10 itemsC10
      ⟨"1", "t1", "T5"⟩ "articles/t-1.md" "vs1" [("9", "f9")]
      rfl (fun _ => rfl) (by decide) rfl (by decide) (by decide) (by decide)⟩

theorem step_new_snd (env : Env) (s : RunnerState) (c : ChangeSet) :
    (step_new env s c).2 = if c.new = [] then [] else [Event.procNew] := by
  unfold step_new
  split <;> rfl

theorem step_updated_snd (env : Env) (s : RunnerState) (c : ChangeSet) :
    (step_updated env s c).2 =
      if c.updated = [] then [] else [Event.procUpdated] := by
  unfold step_updated
  split <;> rfl

theorem step_deleted_snd (env : Env) (s : RunnerState) (c : ChangeSet) :
    (step_deleted env s c).2 =
      if c.deleted = [] then [] else [Event.procDeleted] := by
  unfold step_deleted
  split <;> rfl

theorem delta_trace3_eq (env : Env) (maxA : Nat) (s : RunnerState) :
    delta_trace3 env maxA s =
      [Event.fetchList, Event.detect] ++
        (if (delta_changes env maxA s).new = [] then []
          else [Event.procNew]) ++
        (if (delta_changes env maxA s).updated = [] then []
          else [Event.procUpdated]) ++
        (if (delta_changes env maxA s).deleted = [] then []
          else [Event.procDeleted]) := by
  unfold delta_trace3 delta_step3 delta_step2 delta_step1
  rw [step_new_snd, step_updated_snd, step_deleted_snd]

theorem run_delta_sync_changes_case (env : Env) (maxA : Nat)
    (s : RunnerState)
    (h1 : is_first_run s = false)
    (h2 : fetch_articles_list env.pages maxA ≠ [])
    (h3 : totalChanges (delta_changes env maxA s) ≠ 0)
    (h4 : env.saveMappingOk = true)
    (h5 : env.saveTimestampOk = true) :
    run_delta_sync env maxA s =
      ⟨true,
        { (delta_step3 env maxA s).1 with
            mapping_file_exists := true
            last_run_file_exists := true
            last_run_timestamp := some env.now },
        delta_trace3 env maxA s ++
          [Event.saveMapping, Event.saveTimestamp]⟩ := by
  unfold run_delta_sync
  rw [if_neg (by simp [h1]), if_neg h2, if_neg h3, if_pos h4, if_pos h5]

theorem getLast?_append_pair (l : List Event) (x y : Event) :
    (l ++ [x, y]).getLast? = some y := by
  have h : l ++ [x, y] = (l ++ [x]) ++ [y] := by simp
  rw [h]
  exact List.getLast?_concat _

theorem run_full_sync_trace_head (env : Env) (maxA : Nat)
    (s : RunnerState) :
    (run_full_sync env maxA s).trace.head? = some Event.fullSync := by
  unfold run_full_sync
  repeat' split
  all_goals rfl

theorem run_full_sync_no_category_events (env : Env) (maxA : Nat)
    (s : RunnerState) :
    Event.detect ∉ (run_full_sync env maxA s).trace ∧
    Event.procUpdated ∉ (run_full_sync env maxA s).trace ∧
    Event.procDeleted ∉ (run_full_sync env maxA s).trace := by
  unfold run_full_sync
  repeat' split
  all_goals refine ⟨?_, ?_, ?_⟩
  all_goals simp

theorem run_delta_sync_head_not_first (env : Env) (maxA : Nat)
    (s : RunnerState) (hf : is_first_run s = false) :
    (run_delta_sync env maxA s).trace.head? = some Event.fetchList := by
  unfold run_delta_sync
  rw [if_neg (by simp [hf])]
  by_cases h2 : fetch_articles_list env.pages maxA = []
  · rw [if_pos h2]
    rfl
  · rw [if_neg h2]
    by_cases h3 : totalChanges (delta_changes env maxA s) = 0
    · rw [if_pos h3]
      rfl
    · rw [if_neg h3]
      by_cases h4 : env.saveMappingOk = true
      · by_cases h5 : env.saveTimestampOk = true
        · rw [if_pos h4, if_pos h5]
          rfl
        · rw [if_pos h4, if_neg h5]
          rfl
      · rw [if_neg h4]
        rfl

-- concrete inputs for the run-level claims
def stC3 : RunnerState :=
  ⟨true, true, some "T0", [("u1", "fu1"), ("d1", "fd1")], some "vs1"⟩

def envC3 : Env :=
  { baseEnv with
      pages := fun n =>
        if n = 1 then some [⟨"n1", "tn", "T5"⟩, ⟨"u1", "tu", "T5"⟩]
        else some [] }

def stC4 : RunnerState :=
  ⟨true, true, some "T9", [("1", "fA")], some "vs1"⟩

/-- Claim C3 counterexample: a concrete incremental run with all three
categories non-empty.  The new pipeline finishes and the updated
pipeline starts with no mapping persist in between, and the whole run
persists the mapping exactly once — not once per category. -/
theorem delta_sync_no_commit_between_categories :
    Event.procNew ∈ ((run_delta_sync envC3 40 stC3).trace.takeWhile
      (fun e => e != Event.procUpdated)) ∧
    Event.procUpdated ∈ (run_delta_sync envC3 40 stC3).trace ∧
    Event.procDeleted ∈ (run_delta_sync envC3 40 stC3).trace ∧
    Event.saveMapping ∉ ((run_delta_sync envC3 40 stC3).trace.takeWhile
      (fun e => e != Event.procUpdated)) ∧
    (run_delta_sync envC3 40 stC3).trace.count Event.saveMapping = 1 := by
  decide

/-- Claim C3 (amended): past change detection, an incremental run with
at least one change and successful persistence executes the category
pipelines in the fixed order new, then updated, then deleted (each
skipped when its list is empty), and persists the mapping exactly once,
after all three categories and before the fresh timestamp — so a crash
between categories loses the uncommitted mapping updates of the already
completed categories. -/
theorem delta_sync_single_commit_after_categories (env : Env) (maxA : Nat)
    (s : RunnerState)
    (h1 : is_first_run s = false)
    (h2 : fetch_articles_list env.pages maxA ≠ [])
    (h3 : totalChanges (delta_changes env maxA s) ≠ 0)
    (h4 : env.saveMappingOk = true)
    (h5 : env.saveTimestampOk = true) :
    (run_delta_sync env maxA s).trace =
      ([Event.fetchList, Event.detect] ++
        (if (delta_changes env maxA s).new = [] then []
          else [Event.procNew]) ++
        (if (delta_changes env maxA s).updated = [] then []
          else [Event.procUpdated]) ++
        (if (delta_changes env maxA s).deleted = [] then []
          else [Event.procDeleted])) ++
      [Event.saveMapping, Event.saveTimestamp] := by
  rw [run_delta_sync_changes_case env maxA s h1 h2 h3 h4 h5]
  show delta_trace3 env maxA s ++ [Event.saveMapping, Event.saveTimestamp] = _
  rw [delta_trace3_eq]

/-- Claim C3 witness: the amended single-commit theorem applied to the
concrete run of the counterexample. -/
theorem delta_sync_single_commit_after_categories_witness :
    is_first_run stC3 = false ∧
    fetch_articles_list envC3.pages 40 ≠ [] ∧
    totalChanges (delta_changes envC3 40 stC3) ≠ 0 ∧
    envC3.saveMappingOk = true ∧
    envC3.saveTimestampOk = true ∧
    (run_delta_sync envC3 40 stC3).trace =
      ([Event.fetchList, Event.detect] ++
        (if (delta_changes envC3 40 stC3).new = [] then []
          else [Event.procNew]) ++
        (if (delta_changes envC3 40 stC3).updated = [] then []
          else [Event.procUpdated]) ++
        (if (delta_changes envC3 40 stC3).deleted = [] then []
          else [Event.procDeleted])) ++
      [Event.saveMapping, Event.saveTimestamp] :=
  ⟨by decide, by decide, by decide, rfl, rfl,
    delta_sync_single_commit_after_categories envC3 40 stC3
      (by decide) (by decide) (by decide) rfl rfl⟩

/-- Claim C4 counterexample: an incremental run that succeeds with zero
detected changes returns early (batch_runner.py lines 476-478) without
persisting a fresh lastRunMarker: no save event appears in its trace and
the persisted timestamp stays the old one instead of the current
wall-clock time. -/
theorem delta_sync_no_marker_when_no_changes :
    (run_delta_sync baseEnv 40 stC4).ok = true ∧
    Event.saveTimestamp ∉ (run_delta_sync baseEnv 40 stC4).trace ∧
    Event.saveMapping ∉ (run_delta_sync baseEnv 40 stC4).trace ∧
    (run_delta_sync baseEnv 40 stC4).finalState.last_run_timestamp =
      some "T9" ∧
    (run_delta_sync baseEnv 40 stC4).finalState.last_run_timestamp ≠
      some baseEnv.now := by
  decide

/-- Claim C4 (amended): an incremental run that does not hit a fatal
error and detects at least one change persists a fresh lastRunMarker
taken from the current wall-clock time at the very end of the run;
per-item and per-batch failures inside the category pipelines — the
environment is arbitrary apart from persistence succeeding and the
listing being non-empty — never prevent the marker advance.  A run with
zero detected changes succeeds without advancing the marker. -/
theorem delta_sync_marker_advance (env : Env) (maxA : Nat)
    (s : RunnerState)
    (h1 : is_first_run s = false)
    (h2 : fetch_articles_list env.pages maxA ≠ [])
    (h3 : totalChanges (delta_changes env maxA s) ≠ 0)
    (h4 : env.saveMappingOk = true)
    (h5 : env.saveTimestampOk = true) :
    (run_delta_sync env maxA s).ok = true ∧
    (run_delta_sync env maxA s).finalState.last_run_timestamp =
      some env.now ∧
    (run_delta_sync env maxA s).trace.getLast? =
      some Event.saveTimestamp := by
  rw [run_delta_sync_changes_case env maxA s h1 h2 h3 h4 h5]
  refine ⟨rfl, rfl, ?_⟩
  exact getLast?_append_pair _ _ _

/-- Claim C4 witness: the marker-advance theorem applied to a concrete
run in which the updated pipeline still has a per-item failure
candidate (an environment identical to the counterexample setting but
with changes present). -/
theorem delta_sync_marker_advance_witness :
    is_first_run stC3 = false ∧
    fetch_articles_list envC3.pages 40 ≠ [] ∧
    totalChanges (delta_changes envC3 40 stC3) ≠ 0 ∧
    envC3.saveMappingOk = true ∧
    envC3.saveTimestampOk = true ∧
    ((run_delta_sync envC3 40 stC3).ok = true ∧
     (run_delta_sync envC3 40 stC3).finalState.last_run_timestamp =
       some envC3.now ∧
     (run_delta_sync envC3 40 stC3).trace.getLast? =
       some Event.saveTimestamp) :=
  ⟨by decide, by decide, by decide, rfl, rfl,
    delta_sync_marker_advance envC3 40 stC3
      (by decide) (by decide) (by decide) rfl rfl⟩

/-- The notion of an empty persisted state used by the claim, rendered
from the words of the spec: no mapping and no lastRunMarker. -/
def spec_state_empty (s : RunnerState) : Prop :=
  s.file_mapping = [] ∧ s.last_run_timestamp = none

instance (s : RunnerState) : Decidable (spec_state_empty s) := by
  unfold spec_state_empty; infer_instance

def stC7 : RunnerState := ⟨true, true, some "T0", [], none⟩

/-- Claim C7 counterexample: a state whose files both exist and whose
marker "T0" is present but whose mapping is empty is not an empty state
in the sense of the claim, yet `is_first_run` is true for it and the run
takes the full-resync path (and never reaches change detection). -/
theorem first_run_with_marker_and_empty_mapping :
    is_first_run stC7 = true ∧
    (run_delta_sync baseEnv 40 stC7).trace.head? = some Event.fullSync ∧
    Event.detect ∉ (run_delta_sync baseEnv 40 stC7).trace ∧
    ¬ spec_state_empty stC7 := by
  decide

/-- Claim C7 (amended): a run performs the full-resync path exactly when
the last-run file is missing, or the mapping file is missing, or the
persisted mapping is empty (`is_first_run`); a state with both files
present and a non-empty mapping takes the incremental path.  The
full-resync path never runs change detection nor the updated or deleted
pipelines. -/
theorem full_resync_condition (env : Env) (maxA : Nat) (s : RunnerState) :
    ((run_delta_sync env maxA s).trace.head? = some Event.fullSync ↔
      (s.last_run_file_exists = false ∨ s.mapping_file_exists = false ∨
        s.file_mapping = [])) ∧
    Event.detect ∉ (run_full_sync env maxA s).trace ∧
    Event.procUpdated ∉ (run_full_sync env maxA s).trace ∧
    Event.procDeleted ∉ (run_full_sync env maxA s).trace := by
  have hiff : is_first_run s = true ↔
      (s.last_run_file_exists = false ∨ s.mapping_file_exists = false ∨
        s.file_mapping = []) := by
    simp [is_first_run, Bool.or_eq_true, Bool.not_eq_true',
      List.isEmpty_iff, or_assoc]
  refine ⟨⟨?_, ?_⟩, (run_full_sync_no_category_events env maxA s).1,
    (run_full_sync_no_category_events env maxA s).2.1,
    (run_full_sync_no_category_events env maxA s).2.2⟩
  · intro hhead
    by_cases hf : is_first_run s = true
    · exact hiff.mp hf
    · rw [Bool.not_eq_true] at hf
      rw [run_delta_sync_head_not_first env maxA s hf] at hhead
      exact absurd hhead (by simp)
  · intro hcond
    have hf := hiff.mpr hcond
    unfold run_delta_sync
    rw [if_pos hf]
    exact run_full_sync_trace_head env maxA s
